import Mathlib

/-!
Verification of the LivingLibrary catalog store
(`living_lib2.py` and its near-duplicate `legacy/living_lib.py`).

The Python program loads a spreadsheet into a pandas DataFrame, derives the
columns `ID`, `Year` (normalized), `Authors` (collapsed), and serves read-only
queries: `display_inventory` (list / filter by type), `search_books`,
`access_item` (lookup by id), `get_types`.

Shallow embedding conventions:
- a DataFrame row is a `RawRow` before derivation and an `Entry` after;
  a missing cell (pandas `NaN`) is `Option.none`;
- pandas `Series.str.contains(pat, case=False, na=False)` leaves `regex=True`
  at its default, so the pattern is matched as a case-insensitive regular
  expression, not as a literal substring; it is embedded by
  `strContainsRegex`, which is faithful on the fragment of patterns built
  from ordinary characters and the wildcard `'.'` (every theorem below that
  depends on matching either stays inside this fragment or exhibits the
  wildcard behavior); `none` cells never match (`na=False`);
- file reading is modelled by a `ReadResult` argument: the rows produced by
  `pd.read_excel` / `pd.read_csv` on success, or `ReadResult.failure` when the
  read or parse raises; a numeric cell is given by the string `astype(str)`
  would render it to;
- Python exceptions absorbed by `try/except` become total functions returning
  the fallback value; the error returns of `access_item` become `Except`.
-/

namespace LivingLib

/-- One raw source-table row with the expected columns
(`Title`, `Subtitle`, `Author 1`..`Author 5`, `Type`, `Format`, `Topic`,
`Publisher`, `Year`, optional `Free Download`); `none` models a missing
(`NaN`) cell. -/
structure RawRow where
  title : String
  subtitle : Option String
  author1 : Option String
  author2 : Option String
  author3 : Option String
  author4 : Option String
  author5 : Option String
  typeField : String
  formatField : String
  topic : String
  publisher : String
  year : Option String
  freeDownload : Option String
  deriving DecidableEq, Repr

/-- One normalized catalog entry: a row of `self.df` after
`load_library_data` has added the derived columns `ID`, `Year`, `Authors`. -/
structure Entry where
  id : Int
  title : String
  subtitle : Option String
  authors : String
  typeField : String
  formatField : String
  topic : String
  publisher : String
  year : String
  freeDownload : Option String
  deriving DecidableEq, Repr

/-! ### Author collapse

Python (both versions):
```
df['Authors'] = df[author_cols].fillna('').apply(
    lambda x: ', '.join([str(val) for val in x if val != '' and str(val) != 'n/a']), axis=1)
df['Authors'] = df['Authors'].replace('', 'Unknown')
```
-/

/-- The filter of the list comprehension: `val != '' and str(val) != 'n/a'`. -/
def isRealAuthor (v : String) : Bool :=
  v != "" && v != "n/a"

/-- Python `', '.join(l)`. -/
def joinComma : List String → String
  | [] => ""
  | [v] => v
  | v :: rest => v ++ ", " ++ joinComma rest

/-- `fillna('')` followed by the comprehension's filter, on the five author
cells of one row. -/
def authorValues (cols : List (Option String)) : List String :=
  (cols.map (fun o => o.getD "")).filter isRealAuthor

/-- Collapse the author cells of one row: join the retained values with
`", "`, then `replace('', 'Unknown')` (an exact whole-value replacement). -/
def collapseAuthors (cols : List (Option String)) : String :=
  let joined := joinComma (authorValues cols)
  if joined = "" then "Unknown" else joined

/-! ### Year normalization (only in `living_lib2.py`)

Python: `df['Year'] = df['Year'].fillna('Unknown').astype(str).str.replace('.0', '', regex=False)`

`str.replace` with `regex=False` and default `n=-1` removes every
non-overlapping occurrence of the literal `".0"`, scanning left to right —
not only a trailing suffix. -/

/-- Remove every non-overlapping occurrence of the two-character pattern
`['.', '0']`, scanning left to right: Python `s.replace(".0", "")`. -/
def stripDotZero : List Char → List Char
  | [] => []
  | [c] => [c]
  | c1 :: c2 :: rest =>
    if c1 = '.' ∧ c2 = '0' then stripDotZero rest
    else c1 :: stripDotZero (c2 :: rest)

/-- `fillna('Unknown')` then `str.replace('.0', '', regex=False)` on one
`Year` cell (the cell given as the string `astype(str)` renders it to). -/
def normalizeYear (y : Option String) : String :=
  String.mk (stripDotZero (y.getD "Unknown").data)

/-- Whether the character list contains an occurrence of `['.', '0']`. -/
def hasDotZero : List Char → Bool
  | c1 :: c2 :: rest => (c1 = '.' && c2 = '0') || hasDotZero (c2 :: rest)
  | _ => false

/-- Does the string end with the two characters `".0"`? -/
def endsWithDotZero (s : String) : Bool :=
  match s.data.reverse with
  | '0' :: '.' :: _ => true
  | _ => false

/-- The year rule as the specification words it: substitute `"Unknown"` for a
missing value and strip only an exact trailing `".0"` suffix (drop the last
two characters), leaving any other string unchanged.  Stated for comparison
with `normalizeYear`, which is the translation of the code. -/
def specYearTrailing (y : Option String) : String :=
  match y with
  | none => "Unknown"
  | some s =>
    if endsWithDotZero s then String.mk (s.data.take (s.data.length - 2)) else s

/-! ### Loading

Python (`living_lib2.py`, lines 9–34): inside one `try`, pick the reader by
the path suffix (anything but `.xlsx` / `.csv` raises `ValueError`), read,
then derive `ID = range(1, len(df)+1)`, `Year`, `Authors`; any exception is
caught, printed, and an empty DataFrame is returned. -/

/-- Outcome of `pd.read_excel` / `pd.read_csv`: the parsed rows, or a raised
read/parse exception. -/
inductive ReadResult where
  | rows (rs : List RawRow)
  | failure
  deriving DecidableEq, Repr

/-- Derive one `Entry` from the row at 0-based position `i`:
`ID = i + 1`, collapsed `Authors`, normalized `Year`. -/
def mkEntry (i : Nat) (r : RawRow) : Entry :=
  { id := (i : Int) + 1
    title := r.title
    subtitle := r.subtitle
    authors := collapseAuthors [r.author1, r.author2, r.author3, r.author4, r.author5]
    typeField := r.typeField
    formatField := r.formatField
    topic := r.topic
    publisher := r.publisher
    year := normalizeYear r.year
    freeDownload := r.freeDownload }

/-- The row-processing part of `load_library_data`: assign ids `1..N` in
source row order and derive the computed columns. -/
def buildEntries (rows : List RawRow) : List Entry :=
  rows.enum.map (fun p => mkEntry p.1 p.2)

/-- The suffix dispatch and the read, as an `Except` (the raised
`ValueError` for an unrecognized suffix, or the reader's own exception). -/
def readTable (suffix : String) (res : ReadResult) : Except String (List RawRow) :=
  if suffix = ".xlsx" ∨ suffix = ".csv" then
    match res with
    | .rows rs => .ok rs
    | .failure => .error "read failed"
  else
    .error "Unsupported file format. Use .xlsx or .csv"

/-- `load_library_data`: the whole body runs inside `try`; every raised
exception is absorbed and an empty table is returned. -/
def load_library_data (suffix : String) (res : ReadResult) : List Entry :=
  match readTable suffix res with
  | .ok rs => buildEntries rs
  | .error _ => []

/-! ### Matching

`Series.str.contains(pat, case=False, na=False)` compiles `pat` as a regular
expression (`regex=True` is the pandas default; the source never passes
`regex=False` here) with `re.IGNORECASE` and reports whether `re.search`
finds a match; a missing cell yields `False` (`na=False`).

The regular-expression language is embedded for the fragment of patterns
whose characters are ordinary characters or the wildcard `'.'` (which
matches any character except a newline).  Patterns using the other special
characters `^ $ * + ? { } [ ] \ | ( )` — alternation, classes, anchors,
repetition, and malformed patterns, which make `re.compile` raise
`re.error` — are outside the model; every matching theorem below either
carries the fragment hypothesis or uses only patterns in the fragment.

Case-insensitive *substring* containment (`strContainsCI` /
`SpecContainsCI`) is kept alongside as the specification-side notion that
the claims are stated with, to be compared against the embedded matcher. -/

/-- The characters of `s` lowercased: Python `s.lower()` restricted to the
basic-latin mapping, as in `String.toLower`. -/
def lowerChars (s : String) : List Char :=
  s.data.map Char.toLower

/-- Does `hay` start with `needle`? -/
def startsWithChars : List Char → List Char → Bool
  | [], _ => true
  | _ :: _, [] => false
  | a :: as, b :: bs => a = b && startsWithChars as bs

/-- Does `hay` contain `needle` as a contiguous run? -/
def listContains (needle : List Char) : List Char → Bool
  | [] => needle.isEmpty
  | c :: rest => startsWithChars needle (c :: rest) || listContains needle rest

/-- Case-insensitive substring containment, as an executable test.  This is
the specification's reading of "field contains the query"; it is *not* the
embedding of `str.contains`, which treats the pattern as a regular
expression (see `strContainsRegex`). -/
def strContainsCI (hay needle : String) : Bool :=
  listContains (lowerChars needle) (lowerChars hay)

/-- Specification-side reading of "field contains the query
case-insensitively": the lowercased query occurs contiguously inside the
lowercased field. -/
def SpecContainsCI (hay needle : String) : Prop :=
  ∃ l r, lowerChars hay = l ++ lowerChars needle ++ r

/-- Does the pattern character `pc` match the input character `c`?  The
wildcard `'.'` matches any character except a newline (no `re.DOTALL`);
every other character of the modelled fragment matches only itself. -/
def charMatches (pc c : Char) : Bool :=
  if pc = '.' then c != '\n' else pc = c

/-- Does the pattern match a prefix of the input? -/
def reMatchHere : List Char → List Char → Bool
  | [], _ => true
  | _ :: _, [] => false
  | pc :: ps, c :: cs => charMatches pc c && reMatchHere ps cs

/-- Python `re.search`: does the pattern match at some position of the
input? -/
def reSearch (pat : List Char) : List Char → Bool
  | [] => pat.isEmpty
  | c :: cs => reMatchHere pat (c :: cs) || reSearch pat cs

/-- `hay.str.contains(pat, case=False)` with the default `regex=True`:
`re.search` of the pattern with `re.IGNORECASE` (both sides lowercased),
embedded for patterns made of ordinary characters and the wildcard
`'.'`. -/
def strContainsRegex (hay pat : String) : Bool :=
  reSearch (lowerChars pat) (lowerChars hay)

/-- Is `c` an ordinary character of a Python regular expression — not one of
the special characters `. ^ $ * + ? { } [ ] \ | ( )`?  A pattern all of
whose characters are ordinary matches exactly as a literal substring. -/
def isRegexLiteralChar (c : Char) : Bool :=
  !(c = '.' || c = '^' || c = '$' || c = '*' || c = '+' || c = '?' ||
    c = '\x7b' || c = '\x7d' || c = '[' || c = ']' || c = '\\' || c = '|' ||
    c = '(' || c = ')')

/-! ### search_books (`living_lib2.py`, lines 61–82)

```
query = query.lower()
matches = self.df[
    self.df['Title'].str.contains(query, case=False, na=False) |
    self.df['Authors'].str.contains(query, case=False, na=False) |
    self.df['Topic'].str.contains(query, case=False, na=False) |
    self.df['Subtitle'].str.contains(query, case=False, na=False)]
```
The boolean-mask selection keeps the matching rows, once each, in row
order. -/

/-- The per-row disjunction of the four field tests; a missing `Subtitle`
cell never matches (`na=False`). -/
def matches_query (e : Entry) (query : String) : Bool :=
  let q := String.mk (lowerChars query)
  strContainsRegex e.title q || strContainsRegex e.authors q || strContainsRegex e.topic q ||
    (match e.subtitle with
     | some s => strContainsRegex s q
     | none => false)

/-- `search_books` restricted to its selection of rows (the subsequent
printing is presentation only). -/
def search_books (df : List Entry) (query : String) : List Entry :=
  df.filter (fun e => matches_query e query)

/-! ### display_inventory (`living_lib2.py`, lines 37–45)

`display_df = self.df.copy()`; then, only when `filter_type` is truthy
(neither `None` nor the empty string),
`display_df = display_df[display_df['Type'].str.contains(filter_type, case=False, na=False)]`. -/

/-- `display_inventory` restricted to its selection of rows. -/
def display_inventory (df : List Entry) (filterType : Option String) : List Entry :=
  match filterType with
  | none => df
  | some f => if f = "" then df else df.filter (fun e => strContainsRegex e.typeField f)

/-! ### access_item (`living_lib2.py`, lines 84–111)

`int(book_id)` raising `ValueError` is caught and reported as
"Please enter a valid item ID number"; a parsed id absent from
`self.df['ID'].values` is reported as "Invalid item ID"; otherwise the row
with that id is displayed and `(0, "Item details displayed")` returned. -/

/-- `int(s)` digit run: ASCII digits with single underscores allowed
strictly between digits, accumulating the value. -/
def pyDigitsRest : List Char → Nat → Option Nat
  | [], acc => some acc
  | '_' :: rest, acc =>
    match rest with
    | c :: rest2 => if c.isDigit then pyDigitsRest rest2 (acc * 10 + (c.toNat - 48)) else none
    | [] => none
  | c :: rest, acc => if c.isDigit then pyDigitsRest rest (acc * 10 + (c.toNat - 48)) else none

/-- `int(s)` magnitude: a nonempty digit run that starts with a digit. -/
def pyParseNat (cs : List Char) : Option Nat :=
  match cs with
  | c :: _ => if c.isDigit then pyDigitsRest cs 0 else none
  | [] => none

/-- Strip leading and trailing whitespace, as `int` does before parsing. -/
def trimWs (cs : List Char) : List Char :=
  ((cs.dropWhile Char.isWhitespace).reverse.dropWhile Char.isWhitespace).reverse

/-- Python `int(s)` on a decimal string literal: optional surrounding
whitespace, optional sign, digits; `none` models the raised `ValueError`. -/
def pyInt (s : String) : Option Int :=
  match trimWs s.data with
  | '+' :: rest => (pyParseNat rest).map (fun n => (n : Int))
  | '-' :: rest => (pyParseNat rest).map (fun n => -(n : Int))
  | cs => (pyParseNat cs).map (fun n => (n : Int))

/-- The two distinguishable error returns of `access_item`:
`(-1, "Please enter a valid item ID number")` from the caught `ValueError`,
and `(-1, "Invalid item ID")` from the membership test. -/
inductive AccessError where
  | invalidIdFormat
  | notFound
  deriving DecidableEq, Repr

/-- `access_item` restricted to its outcome: which entry is accessed, or
which of the two error returns is produced. -/
def access_item (df : List Entry) (s : String) : Except AccessError Entry :=
  match pyInt s with
  | none => .error .invalidIdFormat
  | some n =>
    match df.find? (fun e => e.id == n) with
    | none => .error .notFound
    | some e => .ok e

/-! ### get_types (`living_lib2.py`, lines 113–115) -/

/-- `pandas.Series.unique`: distinct values in order of first appearance. -/
def uniqueFirstSeen : List String → List String
  | [] => []
  | x :: rest => x :: uniqueFirstSeen (rest.filter (fun y => y != x))
  termination_by l => l.length
  decreasing_by
    simp only [List.length_cons]
    exact Nat.lt_succ_of_le (List.length_filter_le _ _)

/-- `get_types`: the unique values of the `Type` column. -/
def get_types (df : List Entry) : List String :=
  uniqueFirstSeen (df.map (fun e => e.typeField))

/-! ### The store and its operations as state transformers

`self.df` is the whole mutable state of a `LivingLibrary` object.  Each
query is modelled as returning its result together with the state it leaves
behind; the translations return the incoming state unchanged because the
source reads `self.df` (or a `copy()` / mask selection of it) and never
rebinds it after `__init__`. -/

/-- The state of a `LivingLibrary` object: its `self.df`. -/
structure LibState where
  df : List Entry
  deriving DecidableEq, Repr

/-- `display_inventory` as a state transformer. -/
def display_inventory_op (st : LibState) (f : Option String) : List Entry × LibState :=
  (display_inventory st.df f, st)

/-- `search_books` as a state transformer. -/
def search_books_op (st : LibState) (q : String) : List Entry × LibState :=
  (search_books st.df q, st)

/-- `access_item` as a state transformer. -/
def access_item_op (st : LibState) (s : String) : Except AccessError Entry × LibState :=
  (access_item st.df s, st)

/-- `get_types` as a state transformer. -/
def get_types_op (st : LibState) : List String × LibState :=
  (get_types st.df, st)

end LivingLib

namespace LegacyLib

/-! ### The legacy script (`legacy/living_lib.py`)

Its `search_books` (lines 57–78) is translated here independently; the claim
of interest is that it selects the same rows as the current script's. -/

/-- The per-row match of `legacy/living_lib.py`'s `search_books`:
`query = query.lower()`, then the same four `str.contains(query,
case=False, na=False)` tests joined with `|`. -/
def matches_query (e : LivingLib.Entry) (query : String) : Bool :=
  let q := String.mk (LivingLib.lowerChars query)
  LivingLib.strContainsRegex e.title q || LivingLib.strContainsRegex e.authors q ||
    LivingLib.strContainsRegex e.topic q ||
    (match e.subtitle with
     | some s => LivingLib.strContainsRegex s q
     | none => false)

/-- The legacy `search_books` restricted to its selection of rows. -/
def search_books (df : List LivingLib.Entry) (query : String) : List LivingLib.Entry :=
  df.filter (fun e => matches_query e query)

end LegacyLib

namespace LivingLib

/-! ### Sample data used to exercise the theorems on concrete inputs -/

/-- A concrete raw row with every author column but the first empty and a
float-rendered year cell. -/
def sampleRow1 : RawRow :=
  { title := "Clean Code"
    subtitle := none
    author1 := some "Robert Martin"
    author2 := none
    author3 := none
    author4 := none
    author5 := none
    typeField := "Book"
    formatField := "PDF"
    topic := "Software"
    publisher := "Prentice Hall"
    year := some "2008.0"
    freeDownload := none }

/-- A concrete raw row with a subtitle and a missing year cell. -/
def sampleRow2 : RawRow :=
  { title := "Deep Work"
    subtitle := some "Rules for Focused Success"
    author1 := some "Cal Newport"
    author2 := none
    author3 := none
    author4 := none
    author5 := none
    typeField := "Video"
    formatField := "MP4"
    topic := "Productivity"
    publisher := "Grand Central"
    year := none
    freeDownload := some "yes" }

/-- A concrete loaded entry with no subtitle. -/
def sampleA : Entry :=
  { id := 1
    title := "Clean Code"
    subtitle := none
    authors := "Robert Martin"
    typeField := "Book"
    formatField := "PDF"
    topic := "Software"
    publisher := "Prentice Hall"
    year := "2008"
    freeDownload := none }

/-- A concrete loaded entry with a subtitle. -/
def sampleB : Entry :=
  { id := 2
    title := "Deep Work"
    subtitle := some "Rules for Focused Success"
    authors := "Cal Newport"
    typeField := "Book"
    formatField := "Hardcover"
    topic := "Productivity"
    publisher := "Grand Central"
    year := "2016"
    freeDownload := some "yes" }

/-! ### Helper lemmas: lowercasing -/

/-- Basic-latin lowercasing is idempotent on a character. -/
theorem char_toLower_toLower (c : Char) :
    Char.toLower (Char.toLower c) = Char.toLower c := by
  by_cases h : c.toNat ≥ 65 ∧ c.toNat ≤ 90
  · have h1 : Char.toLower c = Char.ofNat (c.toNat + 32) := by
      unfold Char.toLower
      rw [if_pos h]
    have hv : Nat.isValidChar (c.toNat + 32) := Or.inl (by omega)
    have ht : (Char.ofNat (c.toNat + 32)).toNat = c.toNat + 32 := by
      unfold Char.ofNat
      rw [dif_pos hv]
      rfl
    rw [h1]
    conv in Char.toLower (Char.ofNat (c.toNat + 32)) => unfold Char.toLower
    rw [if_neg]
    rw [ht]
    omega
  · have h1 : Char.toLower c = c := by
      unfold Char.toLower
      rw [if_neg h]
    rw [h1, h1]

/-- Lowercasing a character list is idempotent. -/
theorem map_toLower_idem (l : List Char) :
    (l.map Char.toLower).map Char.toLower = l.map Char.toLower := by
  induction l with
  | nil => rfl
  | cons c t ih => simp [List.map_cons, char_toLower_toLower, ih]

/-- Lowercasing the already-lowercased query changes nothing. -/
theorem lowerChars_mk_lowerChars (q : String) :
    lowerChars (String.mk (lowerChars q)) = lowerChars q :=
  map_toLower_idem q.data

/-- Only the dot lowercases to a dot. -/
theorem toLower_eq_dot (c : Char) (h : Char.toLower c = '.') : c = '.' := by
  by_cases hc : c.toNat ≥ 65 ∧ c.toNat ≤ 90
  · exfalso
    have h1 : Char.toLower c = Char.ofNat (c.toNat + 32) := by
      unfold Char.toLower
      rw [if_pos hc]
    have hv : Nat.isValidChar (c.toNat + 32) := Or.inl (by omega)
    have ht : (Char.ofNat (c.toNat + 32)).toNat = c.toNat + 32 := by
      unfold Char.ofNat
      rw [dif_pos hv]
      rfl
    rw [h1] at h
    have h2 := congrArg Char.toNat h
    rw [ht] at h2
    have hdot : ('.' : Char).toNat = 46 := rfl
    rw [hdot] at h2
    omega
  · have h1 : Char.toLower c = c := by
      unfold Char.toLower
      rw [if_neg hc]
    rw [h1] at h
    exact h

/-- Lowercasing a pattern with no regex-special character yields a pattern
with no wildcard. -/
theorem lowerChars_no_dot (q : String) (h : q.data.all isRegexLiteralChar = true) :
    (lowerChars q).all (fun c => c != '.') = true := by
  rw [List.all_eq_true] at h ⊢
  intro c hc
  obtain ⟨c0, hc0, rfl⟩ := List.mem_map.mp hc
  have h0 := h c0 hc0
  simp only [bne_iff_ne, ne_eq]
  intro hEq
  rw [toLower_eq_dot c0 hEq] at h0
  exact absurd h0 (by decide)

/-- On a pattern with no wildcard, anchored regex matching is the literal
prefix test. -/
theorem reMatchHere_eq_startsWith : ∀ pat hay : List Char,
    pat.all (fun c => c != '.') = true → reMatchHere pat hay = startsWithChars pat hay
  | [], _, _ => rfl
  | _ :: _, [], _ => rfl
  | p :: ps, c :: cs, h => by
    rw [List.all_cons, Bool.and_eq_true] at h
    unfold reMatchHere startsWithChars charMatches
    rw [if_neg (by simpa using h.1)]
    rw [reMatchHere_eq_startsWith ps cs h.2]

/-- On a pattern with no wildcard, regex search is literal substring
containment. -/
theorem reSearch_eq_listContains : ∀ pat hay : List Char,
    pat.all (fun c => c != '.') = true → reSearch pat hay = listContains pat hay
  | _, [], _ => rfl
  | pat, c :: cs, h => by
    unfold reSearch listContains
    rw [reMatchHere_eq_startsWith pat (c :: cs) h, reSearch_eq_listContains pat cs h]

/-- On a pattern with no regex-special character, the embedded
`str.contains` is exactly case-insensitive substring containment. -/
theorem strContainsRegex_eq_CI (hay q : String) (h : q.data.all isRegexLiteralChar = true) :
    strContainsRegex hay q = strContainsCI hay q := by
  unfold strContainsRegex strContainsCI
  exact reSearch_eq_listContains (lowerChars q) (lowerChars hay) (lowerChars_no_dot q h)

/-! ### Helper lemmas: substring containment -/

/-- Correctness of the prefix test. -/
theorem startsWithChars_iff : ∀ (n h : List Char),
    startsWithChars n h = true ↔ ∃ t, h = n ++ t
  | [], h => by simp [startsWithChars]
  | a :: as, [] => by simp [startsWithChars]
  | a :: as, b :: bs => by
    simp only [startsWithChars, Bool.and_eq_true, decide_eq_true_eq]
    constructor
    · rintro ⟨rfl, h2⟩
      obtain ⟨t, rfl⟩ := (startsWithChars_iff as bs).mp h2
      exact ⟨t, rfl⟩
    · rintro ⟨t, ht⟩
      injection ht with h1 h2
      exact ⟨h1.symm, (startsWithChars_iff as bs).mpr ⟨t, h2⟩⟩

/-- Correctness of the containment test: `listContains n h` holds exactly
when `n` occurs contiguously inside `h`. -/
theorem listContains_iff : ∀ (n h : List Char),
    listContains n h = true ↔ ∃ l r, h = l ++ n ++ r
  | n, [] => by
    simp only [listContains, List.isEmpty_iff]
    constructor
    · rintro rfl
      exact ⟨[], [], rfl⟩
    · rintro ⟨l, r, hE⟩
      rcases List.append_eq_nil.mp (List.append_eq_nil.mp hE.symm).1 with ⟨-, h2⟩
      exact h2
  | n, c :: rest => by
    simp only [listContains, Bool.or_eq_true]
    rw [startsWithChars_iff, listContains_iff n rest]
    constructor
    · rintro (⟨t, ht⟩ | ⟨l, r, hE⟩)
      · exact ⟨[], t, by simp [ht]⟩
      · exact ⟨c :: l, r, by simp [hE]⟩
    · rintro ⟨l, r, hE⟩
      cases l with
      | nil => exact Or.inl ⟨r, by simpa using hE⟩
      | cons x xs =>
        injection hE with h1 h2
        exact Or.inr ⟨xs, r, h2⟩

/-- The Boolean test agrees with the specification-side containment. -/
theorem strContainsCI_iff (hay needle : String) :
    strContainsCI hay needle = true ↔ SpecContainsCI hay needle :=
  listContains_iff (lowerChars needle) (lowerChars hay)

/-- Every string contains the empty query. -/
theorem spec_contains_empty (hay : String) : SpecContainsCI hay "" :=
  ⟨[], lowerChars hay, rfl⟩

/-- Per-row search match, characterized for queries with no regex-special
character: the substring disjunction over the four searched fields, with a
missing subtitle never matching. -/
theorem matches_query_iff (e : Entry) (q : String)
    (hq : q.data.all isRegexLiteralChar = true) :
    matches_query e q = true ↔
      SpecContainsCI e.title q ∨ SpecContainsCI e.authors q ∨ SpecContainsCI e.topic q ∨
        ∃ s, e.subtitle = some s ∧ SpecContainsCI s q := by
  have key : ∀ hay : String,
      strContainsRegex hay (String.mk (lowerChars q)) = true ↔ SpecContainsCI hay q := by
    intro hay
    unfold strContainsRegex
    rw [lowerChars_mk_lowerChars]
    rw [reSearch_eq_listContains (lowerChars q) (lowerChars hay) (lowerChars_no_dot q hq)]
    exact listContains_iff (lowerChars q) (lowerChars hay)
  unfold matches_query
  cases hsub : e.subtitle with
  | none =>
    simp only [hsub, Bool.or_eq_true, Bool.or_false, key]
    constructor
    · tauto
    · rintro (h | h | h | ⟨s, hs, -⟩)
      · tauto
      · tauto
      · tauto
      · cases hs
  | some s =>
    simp only [hsub, Bool.or_eq_true, key]
    constructor
    · rintro (((h | h) | h) | h)
      · tauto
      · tauto
      · tauto
      · exact Or.inr (Or.inr (Or.inr ⟨s, rfl, h⟩))
    · rintro (h | h | h | ⟨s2, hs2, h⟩)
      · tauto
      · tauto
      · tauto
      · injection hs2 with hs2
        exact Or.inr (by rw [hs2]; exact h)

/-! ### Helper lemmas: author collapse -/

/-- Filling missing cells with `""` and then discarding empty and `"n/a"`
values is the same as discarding missing, empty and `"n/a"` cells. -/
theorem authorValues_eq_filterMap (cols : List (Option String)) :
    authorValues cols = (cols.filterMap (fun o => o)).filter isRealAuthor := by
  induction cols with
  | nil => rfl
  | cons o t ih =>
    cases o with
    | none =>
      have hL : authorValues (none :: t) = authorValues t := by
        simp [authorValues, List.filter_cons, isRealAuthor]
      have hR : (((none : Option String) :: t).filterMap (fun o => o)).filter isRealAuthor =
          (t.filterMap (fun o => o)).filter isRealAuthor := by
        simp [List.filterMap_cons]
      rw [hL, hR, ih]
    | some v =>
      have hL : authorValues (some v :: t) =
          if isRealAuthor v then v :: authorValues t else authorValues t := by
        simp [authorValues, List.filter_cons]
      have hR : ((some v :: t).filterMap (fun o => o)).filter isRealAuthor =
          if isRealAuthor v then v :: (t.filterMap (fun o => o)).filter isRealAuthor
          else (t.filterMap (fun o => o)).filter isRealAuthor := by
        simp [List.filterMap_cons, List.filter_cons]
      rw [hL, hR, ih]

/-- The join of a nonempty list of nonempty strings is nonempty. -/
theorem joinComma_ne_empty : ∀ l : List String, (∀ v ∈ l, v ≠ "") → l ≠ [] →
    joinComma l ≠ ""
  | [], _, hne => absurd rfl hne
  | [v], hv, _ => hv v (by simp)
  | v :: w :: t, hv, _ => by
    intro hEq
    have hlen := congrArg String.length hEq
    have hstep : joinComma (v :: w :: t) = v ++ ", " ++ joinComma (w :: t) := rfl
    rw [hstep] at hlen
    simp only [String.length_append] at hlen
    have h2 : (", " : String).length = 2 := rfl
    have h0 : ("" : String).length = 0 := rfl
    omega

/-- A value kept by the author filter is nonempty. -/
theorem mem_authorValues_ne_empty (cols : List (Option String)) :
    ∀ v ∈ authorValues cols, v ≠ "" := by
  intro v hv
  have := List.of_mem_filter hv
  simp only [isRealAuthor, Bool.and_eq_true, bne_iff_ne, ne_eq] at this
  exact this.1

/-- The retained author values are empty exactly when every cell is missing,
empty or `"n/a"`. -/
theorem authorValues_eq_nil_iff (l : List (Option String)) :
    authorValues l = [] ↔ ∀ o ∈ l, o = none ∨ o = some "" ∨ o = some "n/a" := by
  unfold authorValues
  rw [List.filter_eq_nil_iff]
  constructor
  · intro h o ho
    have hv := h (o.getD "") (List.mem_map_of_mem _ ho)
    cases o with
    | none => exact Or.inl rfl
    | some v =>
      simp only [Option.getD_some, isRealAuthor, Bool.and_eq_true, bne_iff_ne, ne_eq,
        not_and_or, not_not] at hv
      rcases hv with rfl | rfl
      · exact Or.inr (Or.inl rfl)
      · exact Or.inr (Or.inr rfl)
  · intro h x hx
    obtain ⟨o, ho, rfl⟩ := List.mem_map.mp hx
    rcases h o ho with rfl | rfl | rfl
    · decide
    · decide
    · decide

/-- Emptiness of the join detects emptiness of the retained author list. -/
theorem joinComma_authorValues_eq_empty_iff (cols : List (Option String)) :
    joinComma (authorValues cols) = "" ↔ authorValues cols = [] := by
  constructor
  · intro hj
    by_contra hne
    exact joinComma_ne_empty _ (mem_authorValues_ne_empty cols) hne hj
  · intro hnil
    rw [hnil]
    rfl

/-! ### Helper lemmas: year stripping -/

/-- A character list with no `".0"` occurrence is left unchanged. -/
theorem stripDotZero_eq_self : ∀ cs : List Char, hasDotZero cs = false →
    stripDotZero cs = cs
  | [], _ => rfl
  | [c], _ => rfl
  | c1 :: c2 :: rest, h => by
    rw [hasDotZero, Bool.or_eq_false_iff] at h
    rw [stripDotZero, if_neg, stripDotZero_eq_self (c2 :: rest) h.2]
    intro hc
    rw [hc.1, hc.2] at h
    simpa using h.1

/-- Appending `".0"` to a character list with no `".0"` occurrence and then
stripping recovers the original list: only the appended suffix is removed. -/
theorem stripDotZero_append : ∀ cs : List Char, hasDotZero cs = false →
    stripDotZero (cs ++ ['.', '0']) = cs
  | [], _ => rfl
  | [c], _ => by
    show stripDotZero (c :: '.' :: ['0']) = [c]
    rw [stripDotZero, if_neg]
    · rfl
    · intro hc
      exact absurd hc.2 (by decide)
  | c1 :: c2 :: rest, h => by
    rw [hasDotZero, Bool.or_eq_false_iff] at h
    show stripDotZero (c1 :: c2 :: (rest ++ ['.', '0'])) = c1 :: c2 :: rest
    rw [stripDotZero, if_neg]
    · rw [show c2 :: (rest ++ ['.', '0']) = (c2 :: rest) ++ ['.', '0'] from rfl]
      rw [stripDotZero_append (c2 :: rest) h.2]
    · intro hc
      rw [hc.1, hc.2] at h
      simpa using h.1

/-! ### Helper lemmas: assigned ids -/

/-- The ids assigned by the load are `1..N` in source row order. -/
theorem buildEntries_map_id (rows : List RawRow) :
    (buildEntries rows).map (fun e => e.id) =
      (List.range rows.length).map (fun (i : Nat) => (i : Int) + 1) := by
  unfold buildEntries
  rw [← List.enum_map_fst rows, List.map_map, List.map_map]
  rfl

/-- The assigned ids are pairwise distinct. -/
theorem buildEntries_map_id_nodup (rows : List RawRow) :
    ((buildEntries rows).map (fun e => e.id)).Nodup := by
  rw [buildEntries_map_id]
  refine List.Nodup.map ?_ (List.nodup_range rows.length)
  intro a b hab
  simp only at hab
  omega

/-- The loaded entries themselves are pairwise distinct. -/
theorem buildEntries_nodup (rows : List RawRow) : (buildEntries rows).Nodup :=
  List.Nodup.of_map (fun e => e.id) (buildEntries_map_id_nodup rows)

/-- The assigned ids are strictly increasing along the loaded list. -/
theorem buildEntries_pairwise (rows : List RawRow) :
    (buildEntries rows).Pairwise (fun a b => a.id < b.id) := by
  have h := List.pairwise_lt_range rows.length
  have h2 : ((List.range rows.length).map (fun (i : Nat) => (i : Int) + 1)).Pairwise
      (fun a b => a < b) := by
    rw [List.pairwise_map]
    exact h.imp (fun hab => by omega)
  rw [← buildEntries_map_id rows, List.pairwise_map] at h2
  exact h2

/-! ### Helper lemmas: id lookup -/

/-- With pairwise-distinct ids, `find?` on an id returns exactly the member
carrying that id. -/
theorem find_id_unique : ∀ {df : List Entry}, ((df.map (fun x => x.id)).Nodup) →
    ∀ {e : Entry}, e ∈ df → df.find? (fun x => x.id == e.id) = some e := by
  intro df
  induction df with
  | nil => intro _ e he; cases he
  | cons a t ih =>
    intro h e he
    rw [List.map_cons, List.nodup_cons] at h
    cases List.mem_cons.mp he with
    | inl heq =>
      subst heq
      rw [List.find?_cons_of_pos _ (by simp)]
    | inr ht =>
      have hne : ¬(a.id == e.id) = true := by
        simp only [beq_iff_eq]
        intro hEq
        exact h.1 (hEq ▸ List.mem_map_of_mem (fun x => x.id) ht)
      rw [List.find?_cons_of_neg (p := fun x => x.id == e.id) t hne]
      exact ih h.2 ht

/-! ### The claims -/

/-- C1 (counterexample): the query `"."` is passed to `str.contains` with
the pandas default `regex=True`, so it is the regex wildcard: the entry
titled "Clean Code" — none of whose searched fields contains a literal dot —
is nevertheless selected, refuting the claimed substring iff for arbitrary
query strings. -/
theorem search_regex_counterexample :
    sampleA ∈ search_books [sampleA] "." ∧
    ¬(SpecContainsCI sampleA.title "." ∨ SpecContainsCI sampleA.authors "." ∨
      SpecContainsCI sampleA.topic "." ∨
      ∃ s, sampleA.subtitle = some s ∧ SpecContainsCI s ".") := by
  constructor
  · decide
  · rintro (h | h | h | ⟨s, hs, -⟩)
    · exact absurd ((strContainsCI_iff _ _).mpr h) (by decide)
    · exact absurd ((strContainsCI_iff _ _).mpr h) (by decide)
    · exact absurd ((strContainsCI_iff _ _).mpr h) (by decide)
    · cases hs

/-- C1 (amended): for every loaded catalog and every query string none of
whose characters has special regular-expression meaning, `search_books`
selects an entry iff at least one of title, collapsed authors, topic and
subtitle contains the query case-insensitively; an entry whose subtitle is
absent never matches on subtitle, and on these queries the selection is a
total function, so no such input raises.  (Queries with regex
metacharacters are matched as regular expressions instead, and malformed
ones raise `re.error` — see the counterexample.) -/
theorem search_or_semantics (df : List Entry) (q : String) (e : Entry)
    (hq : q.data.all isRegexLiteralChar = true) :
    e ∈ search_books df q ↔
      e ∈ df ∧ (SpecContainsCI e.title q ∨ SpecContainsCI e.authors q ∨
        SpecContainsCI e.topic q ∨ ∃ s, e.subtitle = some s ∧ SpecContainsCI s q) := by
  unfold search_books
  rw [List.mem_filter]
  constructor
  · rintro ⟨h1, h2⟩
    exact ⟨h1, (matches_query_iff e q hq).mp h2⟩
  · rintro ⟨h1, h2⟩
    exact ⟨h1, (matches_query_iff e q hq).mpr h2⟩

/-- Witness for C1: the entry titled "Deep Work" is found by
`search_books` on the metacharacter-free query "deep". -/
theorem search_or_semantics_witness :
    sampleB ∈ search_books [sampleA, sampleB] "deep" :=
  (search_or_semantics [sampleA, sampleB] "deep" sampleB (by decide)).mpr
    ⟨by decide, Or.inl ⟨[], (" work").data, by decide⟩⟩

/-- C2 (counterexample): the year cell `"x.0y"` neither ends in `".0"` nor
is numeric, yet the load rewrites it to `"xy"`: the code removes every
occurrence of `".0"`, not only an exact trailing suffix, so a non-numeric
string does not always pass through unchanged. -/
theorem year_trailing_strip_refuted :
    normalizeYear (some "x.0y") = "xy" ∧
    specYearTrailing (some "x.0y") = "x.0y" ∧
    normalizeYear (some "x.0y") ≠ specYearTrailing (some "x.0y") := by
  refine ⟨by decide, by decide, by decide⟩

/-- C2 (amended): the load normalizes the year cell by substituting
`"Unknown"` for a missing value and removing every non-overlapping
occurrence of the literal substring `".0"` (scanning left to right) — not
only a trailing one; in particular a string with no `".0"` occurrence passes
through unchanged, and a float-rendered year `s + ".0"` becomes `s`. -/
theorem year_normalization_amended (s : String) (h : hasDotZero s.data = false) :
    normalizeYear none = "Unknown" ∧ normalizeYear (some s) = s ∧
      normalizeYear (some (s ++ ".0")) = s := by
  refine ⟨by decide, ?_, ?_⟩
  · show String.mk (stripDotZero s.data) = s
    rw [stripDotZero_eq_self s.data h]
  · show String.mk (stripDotZero (s ++ ".0").data) = s
    rw [String.data_append]
    rw [show (".0" : String).data = ['.', '0'] from rfl]
    rw [stripDotZero_append s.data h]

/-- Witness for C2 (amended): the float-rendered year `"1999.0"` becomes
`"1999"`. -/
theorem year_normalization_witness :
    hasDotZero ("1999" : String).data = false ∧
      normalizeYear (some ("1999" ++ ".0")) = "1999" :=
  ⟨by decide, (year_normalization_amended "1999" (by decide)).2.2⟩

/-- C3: the collapsed authors field equals the non-empty, non-"n/a" values
among the five author cells, in column order, joined by `", "`; it is
`"Unknown"` exactly when every cell is missing, empty or `"n/a"`; and it is
never the empty string. -/
theorem authors_collapse (a1 a2 a3 a4 a5 : Option String) :
    collapseAuthors [a1, a2, a3, a4, a5] ≠ "" ∧
    collapseAuthors [a1, a2, a3, a4, a5] =
      (if ([a1, a2, a3, a4, a5].filterMap (fun o => o)).filter isRealAuthor = []
       then "Unknown"
       else joinComma (([a1, a2, a3, a4, a5].filterMap (fun o => o)).filter isRealAuthor)) ∧
    ((([a1, a2, a3, a4, a5].filterMap (fun o => o)).filter isRealAuthor = []) ↔
      ∀ o ∈ [a1, a2, a3, a4, a5], o = none ∨ o = some "" ∨ o = some "n/a") := by
  have hrep : collapseAuthors [a1, a2, a3, a4, a5] =
      if joinComma (authorValues [a1, a2, a3, a4, a5]) = "" then "Unknown"
      else joinComma (authorValues [a1, a2, a3, a4, a5]) := rfl
  have hAV := authorValues_eq_filterMap [a1, a2, a3, a4, a5]
  have hEmp := joinComma_authorValues_eq_empty_iff [a1, a2, a3, a4, a5]
  refine ⟨?_, ?_, ?_⟩
  · rw [hrep]
    by_cases hj : joinComma (authorValues [a1, a2, a3, a4, a5]) = ""
    · rw [if_pos hj]
      decide
    · rw [if_neg hj]
      exact hj
  · rw [hrep, ← hAV]
    by_cases hnil : authorValues [a1, a2, a3, a4, a5] = []
    · rw [if_pos (hEmp.mpr hnil), if_pos hnil]
    · rw [if_neg (fun hj => hnil (hEmp.mp hj)), if_neg hnil]
  · rw [← hAV]
    exact authorValues_eq_nil_iff [a1, a2, a3, a4, a5]

/-- Witness for C3: the specification's own example row. -/
theorem authors_collapse_witness :
    collapseAuthors [some "Ada", some "", some "n/a", none, some "Lovelace"] =
      "Ada, Lovelace" := by
  have h := (authors_collapse (some "Ada") (some "") (some "n/a") none (some "Lovelace")).2.1
  rw [h]
  decide

/-- C4: on an input that does not parse as an integer, `access_item` returns
the invalid-id-format error; on a well-formed integer with no matching
loaded entry it returns the not-found error; on an integer matching a loaded
entry it returns that single entry; the function is total, so no id-lookup
input raises past its boundary. -/
theorem id_lookup_contract (df : List Entry) (s : String)
    (h : (df.map (fun e => e.id)).Nodup) :
    (pyInt s = none → access_item df s = Except.error AccessError.invalidIdFormat) ∧
    (∀ n : Int, pyInt s = some n → (∀ e ∈ df, e.id ≠ n) →
      access_item df s = Except.error AccessError.notFound) ∧
    (∀ (n : Int) (e : Entry), pyInt s = some n → e ∈ df → e.id = n →
      access_item df s = Except.ok e) := by
  refine ⟨?_, ?_, ?_⟩
  · intro hp
    unfold access_item
    rw [hp]
  · intro n hp habs
    have hred : access_item df s =
        match df.find? (fun e => e.id == n) with
        | none => Except.error AccessError.notFound
        | some e => Except.ok e := by
      unfold access_item
      rw [hp]
    rw [hred]
    have hfind : df.find? (fun e => e.id == n) = none := by
      rw [List.find?_eq_none]
      intro x hx
      simp only [beq_iff_eq]
      exact habs x hx
    rw [hfind]
  · intro n e hp he hid
    have hred : access_item df s =
        match df.find? (fun x => x.id == n) with
        | none => Except.error AccessError.notFound
        | some x => Except.ok x := by
      unfold access_item
      rw [hp]
    subst hid
    rw [hred, find_id_unique h he]

/-- Witness for C4: id 2 retrieves the second loaded entry. -/
theorem id_lookup_witness : access_item [sampleA, sampleB] "2" = Except.ok sampleB :=
  (id_lookup_contract [sampleA, sampleB] "2" (by decide)).2.2 2 sampleB (by decide)
    (by decide) rfl

/-- C5: a load from a path with an unrecognized extension, or whose
read/parse raises, absorbs the failure and leaves the store empty, so the
caller can always detect the failure by checking emptiness; the load is a
total function, so nothing propagates past its boundary. -/
theorem load_soft_failure (suffix : String) (res : ReadResult) :
    (¬(suffix = ".xlsx" ∨ suffix = ".csv") → load_library_data suffix res = []) ∧
    (res = ReadResult.failure → load_library_data suffix res = []) := by
  constructor
  · intro h
    unfold load_library_data readTable
    rw [if_neg h]
  · rintro rfl
    unfold load_library_data readTable
    by_cases h : suffix = ".xlsx" ∨ suffix = ".csv"
    · rw [if_pos h]
    · rw [if_neg h]

/-- Witness for C5: a `.json` path and a failing `.csv` read both leave the
store empty. -/
theorem load_soft_failure_witness :
    load_library_data ".json" (ReadResult.rows []) = [] ∧
      load_library_data ".csv" ReadResult.failure = [] :=
  ⟨(load_soft_failure ".json" (ReadResult.rows [])).1 (by decide),
   (load_soft_failure ".csv" ReadResult.failure).2 rfl⟩

/-- C6 (counterexample): the filter string is passed to `str.contains` with
the pandas default `regex=True`, so the filter `"."` is the regex wildcard:
the entry of type "Book" — which contains no literal dot — is retained,
refuting the claimed substring semantics for arbitrary filter strings. -/
theorem type_filter_regex_counterexample :
    sampleA ∈ display_inventory [sampleA] (some ".") ∧
    ¬SpecContainsCI sampleA.typeField "." := by
  constructor
  · decide
  · intro h
    exact absurd ((strContainsCI_iff _ _).mpr h) (by decide)

/-- C6 (amended): listing with a filter string none of whose characters has
special regular-expression meaning retains exactly the entries whose type
field contains the substring case-insensitively, and listing without a
filter retains every entry; an empty selection is an ordinary value, not an
error.  (Filters with regex metacharacters are matched as regular
expressions instead — see the counterexample.) -/
theorem type_filter_semantics (df : List Entry) (f : String) (e : Entry)
    (hf2 : f.data.all isRegexLiteralChar = true) :
    (e ∈ display_inventory df (some f) ↔ e ∈ df ∧ SpecContainsCI e.typeField f) ∧
    display_inventory df none = df := by
  constructor
  · have hD : display_inventory df (some f) =
        if f = "" then df else df.filter (fun e => strContainsRegex e.typeField f) := rfl
    rw [hD]
    by_cases hf : f = ""
    · subst hf
      rw [if_pos rfl]
      constructor
      · intro h
        exact ⟨h, spec_contains_empty e.typeField⟩
      · intro h
        exact h.1
    · rw [if_neg hf, List.mem_filter]
      have heq := strContainsRegex_eq_CI e.typeField f hf2
      constructor
      · rintro ⟨h1, h2⟩
        rw [heq] at h2
        exact ⟨h1, (strContainsCI_iff _ _).mp h2⟩
      · rintro ⟨h1, h2⟩
        refine ⟨h1, ?_⟩
        rw [heq]
        exact (strContainsCI_iff _ _).mpr h2
  · rfl

/-- Witness for C6: the metacharacter-free filter "book" retains the entry
of type "Book". -/
theorem type_filter_witness :
    sampleA ∈ display_inventory [sampleA, sampleB] (some "book") :=
  (type_filter_semantics [sampleA, sampleB] "book" sampleA (by decide)).1.mpr
    ⟨by decide, ⟨[], [], by decide⟩⟩

/-- C7: after a load of N rows the assigned ids are exactly the integers
1..N, each exactly once, in source row order; the loaded list is a pure
value, never rebound, so the assignment is stable for the catalog's
lifetime. -/
theorem ids_contiguous (rows : List RawRow) :
    (buildEntries rows).map (fun e => e.id) =
      (List.range rows.length).map (fun (i : Nat) => (i : Int) + 1) ∧
    ((buildEntries rows).map (fun e => e.id)).Nodup :=
  ⟨buildEntries_map_id rows, buildEntries_map_id_nodup rows⟩

/-- Witness for C7: a two-row load is assigned the ids `[1, 2]`. -/
theorem ids_contiguous_witness :
    (buildEntries [sampleRow1, sampleRow2]).map (fun e => e.id) = [1, 2] := by
  have h := (ids_contiguous [sampleRow1, sampleRow2]).1
  rw [h]
  decide

/-- C8: no query operation mutates the loaded store — each returns the state
it received; re-running the unfiltered listing on the state left by a first
run returns the identical sequence; and a filtered listing is a subsequence
of the unfiltered one. -/
theorem queries_pure (st : LibState) (f q s : String) :
    (display_inventory_op st (some f)).2 = st ∧
    (display_inventory_op st none).2 = st ∧
    (search_books_op st q).2 = st ∧
    (access_item_op st s).2 = st ∧
    (get_types_op st).2 = st ∧
    (display_inventory_op (display_inventory_op st none).2 none).1 =
      (display_inventory_op st none).1 ∧
    List.Sublist (display_inventory_op st (some f)).1 (display_inventory_op st none).1 := by
  refine ⟨rfl, rfl, rfl, rfl, rfl, rfl, ?_⟩
  show List.Sublist (display_inventory st.df (some f)) st.df
  have hD : display_inventory st.df (some f) =
      if f = "" then st.df else st.df.filter (fun e => strContainsRegex e.typeField f) := rfl
  rw [hD]
  by_cases hf : f = ""
  · rw [if_pos hf]
  · rw [if_neg hf]
    exact List.filter_sublist st.df

/-- Witness for C8: a search leaves a one-entry store unchanged. -/
theorem queries_pure_witness :
    (search_books_op (LibState.mk [sampleA]) "ada").2 = LibState.mk [sampleA] :=
  (queries_pure (LibState.mk [sampleA]) "book" "ada" "1").2.2.1

/-- C9: for every query over a loaded catalog, search returns each matching
entry exactly once — the result has no duplicates even when several fields
match — as a subsequence of the catalog with strictly increasing ids, i.e.
in original catalog order with no reordering by relevance. -/
theorem search_no_duplicates (rows : List RawRow) (q : String) :
    List.Sublist (search_books (buildEntries rows) q) (buildEntries rows) ∧
    (search_books (buildEntries rows) q).Nodup ∧
    (search_books (buildEntries rows) q).Pairwise (fun a b => a.id < b.id) ∧
    ∀ e, e ∈ search_books (buildEntries rows) q ↔
      e ∈ buildEntries rows ∧ matches_query e q = true := by
  refine ⟨List.filter_sublist _, ?_, ?_, fun e => List.mem_filter⟩
  · exact (buildEntries_nodup rows).filter _
  · exact List.Pairwise.sublist (List.filter_sublist _) (buildEntries_pairwise rows)

/-- Witness for C9: a concrete two-row search result has no duplicates. -/
theorem search_no_duplicates_witness :
    (search_books (buildEntries [sampleRow1, sampleRow2]) "o").Nodup :=
  (search_no_duplicates [sampleRow1, sampleRow2] "o").2.1

/-- C10: the legacy and the current implementations of the search operation
select exactly the same entries in the same order, for every catalog and
every query. -/
theorem legacy_search_equivalent (df : List Entry) (q : String) :
    LegacyLib.search_books df q = search_books df q := rfl

/-- Witness for C10: the two implementations agree on a concrete catalog
and query. -/
theorem legacy_search_equivalent_witness :
    LegacyLib.search_books [sampleA, sampleB] "deep" =
      search_books [sampleA, sampleB] "deep" :=
  legacy_search_equivalent [sampleA, sampleB] "deep"

end LivingLib
